import Mathlib

/-!
Shallow embedding of the mixnet core engine (`src/core/mod.rs` and
`src/core/cover.rs`). The engine coordinates two concurrently valid
sessions, per-packet peel-and-route logic, replay suppression, authored
packet scheduling, forward queueing, a SURB keystore and fragment
reassembly.

Collaborator modules of the repository that are not present under `src/`
(sessions, kx_store, replay_filter, packet_queues, fragment,
surb_keystore, topology, sphinx) are modelled from the spec: pure byte
level or cryptographic operations and the session phase predicate tables
become fields of an `Env` parameter, and container types (queues,
keystore, replay filter) become simple functional data structures
following the spec's description of their contracts.
-/

namespace MixnetCore

/-- Key-exchange public key (32 bytes in the source), abstracted. -/
abbrev KxPublic := Nat
/-- Shared or private key-exchange secret, abstracted. -/
abbrev Secret := Nat
/-- Peer identity. -/
abbrev PeerId := Nat
/-- SURB identifier. -/
abbrev SurbId := Nat
/-- Bundle of single-use payload-decryption keys for one SURB. -/
abbrev SurbKeys := Nat
/-- A full packet payload (PAYLOAD_SIZE bytes), abstracted. -/
abbrev Payload := Nat
/-- The payload-data prefix of a payload (PAYLOAD_DATA_SIZE bytes). -/
abbrev PayloadData := Nat
/-- A Sphinx routing target, abstracted. -/
abbrev Target := Nat
/-- Index of a mixnode in a session's mixnode list. -/
abbrev MixnodeIndex := Nat
/-- Session index (`u32` in the source). -/
abbrev SessionIndex := Nat
/-- Message identifier (MESSAGE_ID_SIZE random bytes). -/
abbrev MessageId := Nat
/-- A fragment blueprint produced by the fragment generator. -/
abbrev Blueprint := Nat
/-- State of a `RequestBuilder`, abstracted. -/
abbrev Builder := Nat
/-- State of the thread-local RNG, abstracted; operations thread it. -/
abbrev Rng := Nat
/-- A forwarding delay in Sphinx units (`Delay` in the source). -/
abbrev Delay := Nat
/-- A duration, modelled as an exact rational number of seconds. -/
abbrev Duration := ℚ
/-- An instant, modelled as a rational number of seconds. -/
abbrev Instant := ℚ
/-- A single-use reply block. -/
abbrev Surb := Nat
/-- Message bytes, as a list so emptiness is observable. -/
abbrev Data := List Nat
/-- A network status handle, abstracted (queried only through `Env`). -/
abbrev NetStatus := Nat
/-- Fragment assembler state, abstracted (stepped only through `Env`). -/
abbrev FAState := Nat
/-- State of the fragment-reassembly of a completed message. -/
structure FragMessage where
  id : MessageId
  data : Nat
  surbs : List Surb
  deriving DecidableEq, Repr

/-- `2^32`, the modulus of the `u32` session index arithmetic. -/
def U32 : Nat := 4294967296

/-- `u32::wrapping_sub` on session indices (inputs below `U32`). -/
def wrappingSub (a b : Nat) : Nat := (a + U32 - b % U32) % U32

/-- A packet as seen by the engine: its key-exchange public field plus
the rest of the bytes, abstracted. -/
structure Packet where
  kxPublicField : KxPublic
  body : Nat
  deriving DecidableEq, Repr

/-- `kx_public(packet)`: extract the packet's key-exchange public field. -/
def kx_public (p : Packet) : KxPublic := p.kxPublicField

/-- A packet together with the peer to send it to. -/
structure AddressedPacket where
  peerId : PeerId
  packet : Nat
  deriving DecidableEq, Repr

/-- Result of peeling one onion layer (`sphinx::Action`). -/
inductive Action where
  | forwardTo (target : Target) (delay : Delay)
  | deliverRequest
  | deliverReply (surbId : SurbId)
  | deliverCover (coverId : Option Nat)
  deriving DecidableEq, Repr

/-- Peel errors: MAC failure (wrong key, try other session) versus any
other error (malformed packet). -/
inductive PeelErr where
  | mac
  | other
  deriving DecidableEq, Repr

/-- Topology errors, abstracted to a single case. -/
inductive TopologyErr where
  | err
  deriving DecidableEq, Repr

/-- Message delivered by the engine to the caller. -/
inductive Message where
  | request (sessionIndex : SessionIndex) (data : Nat) (surbs : List Surb)
  | reply (id : MessageId) (data : Nat)
  deriving DecidableEq, Repr

/-- A mixnode identified by session index and position in that
session's mixnode list (`MixnodeId`). -/
structure MixnodeId where
  sessionIndex : SessionIndex
  mixnodeIndex : MixnodeIndex
  deriving DecidableEq, Repr

/-- Errors surfaced by `post_request` / `post_reply`. -/
inductive PostErr where
  | tooManyFragments
  | badSessionIndex (index : SessionIndex)
  | requestsAndRepliesBlocked (index : SessionIndex)
  | sessionEmpty (index : SessionIndex)
  | sessionDisabled (index : SessionIndex)
  | notEnoughSpaceInQueue
  | topology (e : TopologyErr)
  | badSurb
  deriving DecidableEq, Repr

/-- Relative session index: the current or the previous session. -/
inductive RelSessionIndex where
  | current
  | prev
  deriving DecidableEq, Repr

/-- `RelSessionIndex + SessionIndex`: `Current + i = i`, `Prev + i = i - 1`. -/
def RelSessionIndex.addTo : RelSessionIndex → SessionIndex → SessionIndex
  | .current, i => i
  | .prev, i => i - 1

/-- The session phases of the rotation cycle. The predicate tables
(`need_prev`, `allow_requests_and_replies`, `gen_cover_packets`,
`default_request_session`) are an external contract; they live in `Env`. -/
inductive SessionPhase where
  | connectToCurrent
  | coverToCurrent
  | requestsAndRepliesToCurrent
  | coverToPrevRequestsToCurrent
  | disconnectFromPrev
  deriving DecidableEq, Repr

/-- Index and phase of the current session (`SessionStatus`). The
index is a plain `Nat` (a `u32` session index in the source). -/
structure SessionStatus where
  currentIndex : Nat
  phase : SessionPhase
  deriving DecidableEq, Repr

/-- Route kinds for cover packet generation. -/
inductive RouteKind where
  | toMixnode (i : MixnodeIndex)
  | loopKind
  deriving DecidableEq, Repr

/-- Topology of one session. Modelled from the spec: the topology
contract exposes `is_mixnode`, peer-id lookups and reserved addresses. -/
structure Topology where
  isMixnode : Bool
  targetToPeerId : Target → Except TopologyErr PeerId
  mixnodeIndexToPeerId : MixnodeIndex → Except TopologyErr PeerId

/-- FIFO bounded authored packet queue. Modelled from the spec:
"FIFO of (peer-id, packet) pairs, bounded capacity". -/
structure AuthoredPacketQueue where
  capacity : Nat
  items : List AddressedPacket

namespace AuthoredPacketQueue

def remainingCapacity (q : AuthoredPacketQueue) : Nat := q.capacity - q.items.length

def push (q : AuthoredPacketQueue) (p : AddressedPacket) : AuthoredPacketQueue :=
  { q with items := q.items ++ [p] }

/-- Pop the front; on an empty queue returns `none` and leaves the
queue unchanged. -/
def pop (q : AuthoredPacketQueue) : Option AddressedPacket × AuthoredPacketQueue :=
  match q.items with
  | [] => (none, q)
  | p :: rest => (some p, { q with items := rest })

end AuthoredPacketQueue

/-- One session's state (`Session`). The replay filter is modelled from
the spec as an exact set (list) of key-exchange publics: insert and
membership, no removal. -/
structure Session where
  topology : Topology
  authoredPacketQueue : AuthoredPacketQueue
  meanAuthoredPacketPeriod : Duration
  replayFilter : List KxPublic

/-- A session slot (`SessionSlot`): empty, disabled, or full. -/
inductive SessionSlot where
  | empty
  | disabled
  | full (s : Session)

/-- The current and previous session slots (`Sessions`). -/
structure Sessions where
  current : SessionSlot
  prev : SessionSlot

namespace Sessions

/-- `Default::default()`: both slots empty. -/
def default : Sessions := ⟨.empty, .empty⟩

/-- Modelled from the spec: "previous discarded, current becomes
previous, new current empty". -/
def advanceByOne (s : Sessions) : Sessions := ⟨.empty, s.current⟩

/-- `sessions[rel_index]`. -/
def get (s : Sessions) : RelSessionIndex → SessionSlot
  | .current => s.current
  | .prev => s.prev

/-- Write a (mutated) session back into a slot. -/
def set (s : Sessions) : RelSessionIndex → Session → Sessions
  | .current, sess => { s with current := .full sess }
  | .prev, sess => { s with prev := .full sess }

/-- `enumerate` / `enumerate_mut`: the full slots in order current,
then previous. Modelled from the spec: "For each session slot
(current, then previous) that is Full". -/
def relSlots (s : Sessions) : List (RelSessionIndex × Session) :=
  [(RelSessionIndex.current, s.current), (RelSessionIndex.prev, s.prev)].filterMap
    fun p => match p.2 with
      | .full sess => some (p.1, sess)
      | _ => none

end Sessions

/-- Key-exchange store secrets: session index paired with its secret.
Modelled from the spec: "maps session index → secret scalar". -/
abbrev KxStore := List (SessionIndex × Secret)

/-- Discard secrets for sessions before `index`. Modelled from the
spec: "discard secrets for sessions older than the oldest still-needed
one". -/
def discardSessionsBefore (ks : KxStore) (index : SessionIndex) : KxStore :=
  ks.filter fun p => decide (index ≤ p.1)

/-- Bounded SURB keystore. Modelled from the spec: "a mapping from
SURB-id to a bundle of single-use payload-decryption keys". -/
structure SurbKeystore where
  capacity : Nat
  entries : List (SurbId × SurbKeys)

namespace SurbKeystore

/-- `entry(&surb_id)`: look up the keys for a SURB id. -/
def lookup (ks : SurbKeystore) (id : SurbId) : Option SurbKeys :=
  ks.entries.lookup id

/-- `entry.remove()`: remove the first entry with this id. -/
def removeList : List (SurbId × SurbKeys) → SurbId → List (SurbId × SurbKeys)
  | [], _ => []
  | e :: rest, id => if e.1 = id then rest else e :: removeList rest id

def remove (ks : SurbKeystore) (id : SurbId) : SurbKeystore :=
  { ks with entries := removeList ks.entries id }

end SurbKeystore

/-- A queued forward packet with its deadline (`ForwardPacket`). -/
structure ForwardPacket where
  deadline : Instant
  packet : AddressedPacket

/-- Min-heap of forward packets keyed by deadline, bounded. Modelled
from the spec: "Min-heap keyed by deadline; bounded capacity". -/
structure ForwardPacketQueue where
  capacity : Nat
  items : List ForwardPacket

namespace ForwardPacketQueue

def remainingCapacity (q : ForwardPacketQueue) : Nat := q.capacity - q.items.length

def insertList (fp : ForwardPacket) : List ForwardPacket → List ForwardPacket
  | [] => [fp]
  | h :: t => if fp.deadline < h.deadline then fp :: h :: t else h :: insertList fp t

/-- `insert`: insert by deadline; returns whether the head (the next
deadline) changed. -/
def insert (q : ForwardPacketQueue) (fp : ForwardPacket) : Bool × ForwardPacketQueue :=
  let changed := match q.items with
    | [] => true
    | h :: _ => decide (fp.deadline < h.deadline)
  (changed, { q with items := insertList fp q.items })

end ForwardPacketQueue

/-- The three invalidation bits (`Invalidated`). -/
structure Invalidated where
  reservedPeers : Bool
  nextForwardPacketDeadline : Bool
  nextAuthoredPacketDeadline : Bool
  deriving DecidableEq, Repr

namespace Invalidated

def empty : Invalidated := ⟨false, false, false⟩

/-- `|= RESERVED_PEERS | NEXT_AUTHORED_PACKET_DEADLINE`. -/
def raiseReservedAndAuthored (i : Invalidated) : Invalidated :=
  { i with reservedPeers := true, nextAuthoredPacketDeadline := true }

/-- `|= NEXT_FORWARD_PACKET_DEADLINE`. -/
def raiseForward (i : Invalidated) : Invalidated :=
  { i with nextForwardPacketDeadline := true }

/-- `|= NEXT_AUTHORED_PACKET_DEADLINE`. -/
def raiseAuthored (i : Invalidated) : Invalidated :=
  { i with nextAuthoredPacketDeadline := true }

end Invalidated

/-- The recognized configuration options used by the embedded code. -/
structure Config where
  genCoverPackets : Bool
  loopCoverProportion : ℚ
  numHops : Nat
  meanForwardingDelay : Duration
  maxFragmentsPerMessage : Nat
  forwardPacketQueueCapacity : Nat
  surbKeystoreCapacity : Nat

/-- The abstract operations of the collaborator modules that are not
under `src/`. Modelled from the spec: the Sphinx primitive contract,
the session phase predicate tables, the key-exchange derivation, the
fragment generator, the request builder and the route generator are
external black boxes; the engine only composes them. -/
structure Env where
  /-- Phase predicate: is the previous session still needed. -/
  needPrev : SessionPhase → Bool
  /-- Phase predicate: may requests/replies be sent on a session. -/
  allowRequestsAndReplies : SessionPhase → RelSessionIndex → Bool
  /-- Phase predicate: generate cover packets for a session. -/
  genCoverPackets : SessionPhase → RelSessionIndex → Bool
  /-- Phase predicate: default target session for new requests. -/
  defaultRequestSession : SessionPhase → RelSessionIndex
  /-- `kx_store.add_pending_session_secrets()`. -/
  addPendingSessionSecrets : KxStore → KxStore
  /-- Diffie-Hellman style exchange of a session secret with a packet
  public, yielding the shared secret. -/
  kxExchange : Secret → KxPublic → Secret
  /-- `sphinx::peel`: returns the action and the peeled output buffer. -/
  peel : Packet → Secret → Except PeelErr (Action × Nat)
  /-- `array_ref![out, 0, PAYLOAD_DATA_SIZE]`. -/
  payloadData : Nat → PayloadData
  /-- `array_mut_ref![out, 0, PAYLOAD_SIZE]`. -/
  payloadOf : Nat → Payload
  /-- Payload-data prefix of a decrypted payload. -/
  payloadDataOfPayload : Payload → PayloadData
  /-- `sphinx::decrypt_reply_payload`; `none` on failure. -/
  decryptReplyPayload : Payload → SurbKeys → Option Payload
  /-- Fragment assembler step: new state and any completed message. -/
  faInsert : FAState → PayloadData → FAState × Option FragMessage
  /-- `Delay::to_duration(mean_forwarding_delay)`. -/
  delayToDuration : Delay → Duration → Duration
  /-- `Instant::now()`. -/
  now : Instant
  /-- A fresh `Exp(1)` sample from the thread RNG. -/
  sampleExp1 : Rng → ℚ
  /-- `rng.gen_bool(p)`; threads the RNG. -/
  genBool : Rng → ℚ → Bool × Rng
  /-- Fresh random message id; threads the RNG. -/
  genMessageId : Rng → MessageId × Rng
  /-- `fragment_blueprints(message_id, data, num_surbs)`. -/
  fragmentBlueprints : MessageId → Data → Nat → Option (List Blueprint)
  /-- `RequestBuilder::new`. -/
  requestBuilderNew : Rng → Topology → NetStatus → Option MixnodeIndex →
    Except TopologyErr (Builder × Rng)
  /-- `request_builder.destination_index()`. -/
  builderDestinationIndex : Builder → MixnodeIndex
  /-- One iteration of the `post_request` packet-building loop:
  `build_packet` with the fragment/SURB writing closure. Consumes and
  returns the SURB keystore (the closure inserts entries) and yields
  the built packet, its request delay and the max reply delay
  contribution. -/
  buildFragmentPacket : Builder → Rng → Blueprint → SurbKeystore → Nat →
    Except TopologyErr (AddressedPacket × Delay × Delay × SurbKeystore × Rng)
  /-- Zeroed packet with `write_except_surbs` applied for a blueprint. -/
  replyPacketBody : Blueprint → Nat
  /-- `sphinx::complete_reply_packet`: first-hop index and the
  completed packet, or `none` for a bad SURB. -/
  completeReplyPacket : Nat → Surb → Option (MixnodeIndex × Nat)
  /-- `route_generator.choose_destination_index`. -/
  chooseDestinationIndex : Topology → NetStatus → Rng → Except TopologyErr MixnodeIndex
  /-- `route_generator.gen_route`: first-hop index and route data. -/
  genRoute : Topology → NetStatus → Rng → RouteKind → Nat → Except TopologyErr (MixnodeIndex × Nat)
  /-- `sphinx::build_cover_packet` applied to the generated route. -/
  buildCoverPacket : Nat → Rng → Nat

/-- `kx_store.session_exchange(session_index, kx_public)`: none when no
secret is stored for the session. -/
def sessionExchange (env : Env) (ks : KxStore) (index : SessionIndex) (pk : KxPublic) :
    Option Secret :=
  (ks.lookup index).map fun s => env.kxExchange s pk

/-- The engine state (`Mixnet`). -/
structure Mixnet where
  config : Config
  sessionStatus : SessionStatus
  kxStore : KxStore
  sessions : Sessions
  forwardPacketQueue : ForwardPacketQueue
  surbKeystore : SurbKeystore
  fragmentAssembler : FAState
  invalidated : Invalidated

/-- `set_session_status`: no-op when unchanged; rotate on advance by
one, reset otherwise; disable the previous slot when the phase no
longer needs it; prune the key store; raise the reserved-peers and
next-authored-deadline bits. -/
def set_session_status (env : Env) (m : Mixnet) (status : SessionStatus) : Mixnet :=
  if m.sessionStatus = status then m
  else
    let sessions :=
      if m.sessionStatus.currentIndex ≠ status.currentIndex then
        if status.currentIndex - m.sessionStatus.currentIndex = 1 then
          m.sessions.advanceByOne
        else
          Sessions.default
      else m.sessions
    let sessions :=
      if env.needPrev status.phase then sessions
      else { sessions with prev := .disabled }
    let minNeededRel : RelSessionIndex :=
      if env.needPrev status.phase then .prev else .current
    let kxStore := discardSessionsBefore m.kxStore (minNeededRel.addTo status.currentIndex)
    { m with
      sessions := sessions,
      kxStore := kxStore,
      invalidated := m.invalidated.raiseReservedAndAuthored,
      sessionStatus := status }

/-- `post_session`: resolve a session index for `post_request` /
`post_reply`, in order: relative index, phase check, slot check. -/
def post_session (env : Env) (sessions : Sessions) (status : SessionStatus)
    (index : SessionIndex) : Except PostErr (RelSessionIndex × Session) :=
  if wrappingSub status.currentIndex index = 0 then checkRel .current
  else if wrappingSub status.currentIndex index = 1 then checkRel .prev
  else .error (.badSessionIndex index)
where
  checkRel (relIndex : RelSessionIndex) : Except PostErr (RelSessionIndex × Session) :=
    if ¬ env.allowRequestsAndReplies status.phase relIndex then
      .error (.requestsAndRepliesBlocked index)
    else
      match sessions.get relIndex with
      | .empty => .error (.sessionEmpty index)
      | .disabled => .error (.sessionDisabled index)
      | .full session => .ok (relIndex, session)

/-- Result of the `find_map` over the full session slots in
`handle_packet`: no session matched (`None` from `find_map`), a hard
failure (`Some(Err(..))`: replay filter hit or a non-MAC peel error),
or a successful peel with the acting session. -/
inductive PeelOutcome where
  | noMatch
  | hardFail
  | success (relIndex : RelSessionIndex) (sessionIndex : SessionIndex)
      (session : Session) (out : Nat) (action : Action)

/-- The body of the `find_map` closure for one session: `none` means
continue with the next session, `some` is the final result. -/
def trySession (env : Env) (status : SessionStatus) (ks : KxStore) (packet : Packet)
    (relIndex : RelSessionIndex) (session : Session) : Option PeelOutcome :=
  if session.replayFilter.contains (kx_public packet) then
    some .hardFail
  else
    let sessionIndex := relIndex.addTo status.currentIndex
    match sessionExchange env ks sessionIndex (kx_public packet) with
    | none => none
    | some sharedSecret =>
      match env.peel packet sharedSecret with
      | .error .mac => none
      | .error .other => some .hardFail
      | .ok (action, out) => some (.success relIndex sessionIndex session out action)

/-- `sessions.enumerate_mut().find_map(..)` over the full slots in
order current, then previous. -/
def findSessionResult (env : Env) (status : SessionStatus) (ks : KxStore)
    (sessions : Sessions) (packet : Packet) : PeelOutcome :=
  go (sessions.relSlots)
where
  go : List (RelSessionIndex × Session) → PeelOutcome
    | [] => .noMatch
    | (relIndex, session) :: rest =>
      match trySession env status ks packet relIndex session with
      | some outcome => outcome
      | none => go rest

/-- `handle_packet`: poll pending session secrets, find a session that
accepts the packet, then dispatch on the peeled action. Returns the new
engine state and any delivered message. -/
def handle_packet (env : Env) (m : Mixnet) (packet : Packet) : Mixnet × Option Message :=
  let m := { m with kxStore := env.addPendingSessionSecrets m.kxStore }
  match findSessionResult env m.sessionStatus m.kxStore m.sessions packet with
  | .noMatch => (m, none)
  | .hardFail => (m, none)
  | .success relIndex sessionIndex session out action =>
    match action with
    | .forwardTo target delay =>
      if ¬ session.topology.isMixnode then
        (m, none)
      else if m.forwardPacketQueue.remainingCapacity = 0 then
        (m, none)
      else
        -- After the is_mixnode check, to avoid growing replay filters
        -- in sessions where the local node is not a mixnode
        let session := { session with
          replayFilter := kx_public packet :: session.replayFilter }
        let m := { m with sessions := m.sessions.set relIndex session }
        match session.topology.targetToPeerId target with
        | .ok peerId =>
          let deadline := env.now + env.delayToDuration delay m.config.meanForwardingDelay
          let forwardPacket : ForwardPacket :=
            { deadline := deadline, packet := { peerId := peerId, packet := out } }
          let ins := m.forwardPacketQueue.insert forwardPacket
          let m := { m with
            forwardPacketQueue := ins.2,
            invalidated := if ins.1 then m.invalidated.raiseForward else m.invalidated }
          (m, none)
        | .error _ => (m, none)
    | .deliverRequest =>
      let payloadData := env.payloadData out
      if ¬ session.topology.isMixnode then
        (m, none)
      else
        let session := { session with
          replayFilter := kx_public packet :: session.replayFilter }
        let m := { m with sessions := m.sessions.set relIndex session }
        let ins := env.faInsert m.fragmentAssembler payloadData
        ({ m with fragmentAssembler := ins.1 },
          ins.2.map fun msg => Message.request sessionIndex msg.data msg.surbs)
    | .deliverReply surbId =>
      let payload := env.payloadOf out
      -- The replay filter is not touched: the SURB keystore lookup is
      -- inherently single-use
      match m.surbKeystore.lookup surbId with
      | none => (m, none)
      | some keys =>
        let res := env.decryptReplyPayload payload keys
        let m := { m with surbKeystore := m.surbKeystore.remove surbId }
        match res with
        | none => (m, none)
        | some payload =>
          let payloadData := env.payloadDataOfPayload payload
          let ins := env.faInsert m.fragmentAssembler payloadData
          ({ m with fragmentAssembler := ins.1 },
            ins.2.map fun msg => Message.reply msg.id msg.data)
    | .deliverCover _ => (m, none)

/-- `next_authored_packet_delay`: the minimum mean period over the full
sessions eligible for cover under the current phase, scaled by an
`Exp(1)` sample capped at 10. -/
def next_authored_packet_delay (env : Env) (m : Mixnet) (rng : Rng) : Option Duration :=
  ((m.sessions.relSlots.filter fun p =>
      env.genCoverPackets m.sessionStatus.phase p.1).map fun p =>
        p.2.meanAuthoredPacketPeriod).min?.map fun mean =>
    mean * min (env.sampleExp1 rng) 10

/-- Kinds of cover packet (`cover::CoverKind`). -/
inductive CoverKind where
  | drop
  | loopKind
  deriving DecidableEq, Repr

/-- `gen_cover_packet` (`src/core/cover.rs`): none when cover packets
are disabled in the config; otherwise generate a route of the requested
kind and build a Sphinx cover packet, none on any topology error. -/
def gen_cover_packet (env : Env) (rng : Rng) (topology : Topology) (lns : NetStatus)
    (kind : CoverKind) (config : Config) : Option AddressedPacket :=
  if ¬ config.genCoverPackets then
    none
  else
    let gen : Except TopologyErr AddressedPacket := do
      let routeKind ← match kind with
        | .drop => do
          let i ← env.chooseDestinationIndex topology lns rng
          pure (RouteKind.toMixnode i)
        | .loopKind => pure RouteKind.loopKind
      let (firstMixnodeIndex, route) ← env.genRoute topology lns rng routeKind config.numHops
      let peerId ← topology.mixnodeIndexToPeerId firstMixnodeIndex
      pure { peerId, packet := env.buildCoverPacket route rng }
    match gen with
    | .ok packet => some packet
    | .error _ => none

/-- `pop_next_authored_packet`: choose a session eligible for cover
(randomly by rate if both are), raise the next-authored-deadline bit,
then either emit a loop cover packet, pop the session's authored queue,
or emit a drop cover packet. -/
def pop_next_authored_packet (env : Env) (m : Mixnet) (rng : Rng) (ns : NetStatus) :
    Mixnet × Option AddressedPacket :=
  let afterPick := fun (chosen : RelSessionIndex × Session) (rng : Rng) =>
    let relIndex := chosen.1
    let session := chosen.2
    let m := { m with invalidated := m.invalidated.raiseAuthored }
    let loopChoice := env.genBool rng m.config.loopCoverProportion
    if loopChoice.1 then
      (m, gen_cover_packet env loopChoice.2 session.topology ns .loopKind m.config)
    else
      let popRes :=
        if env.allowRequestsAndReplies m.sessionStatus.phase relIndex then
          session.authoredPacketQueue.pop
        else
          (none, session.authoredPacketQueue)
      let m := { m with
        sessions := m.sessions.set relIndex { session with authoredPacketQueue := popRes.2 } }
      match popRes.1 with
      | some packet => (m, some packet)
      | none => (m, gen_cover_packet env loopChoice.2 session.topology ns .drop m.config)
  match m.sessions.relSlots.filter fun p =>
      env.genCoverPackets m.sessionStatus.phase p.1 with
  | [] => (m, none)
  | [session0] => afterPick session0 rng
  | session0 :: session1 :: _ =>
    -- Both sessions active: choose randomly based on their rates.
    let period0 := session0.2.meanAuthoredPacketPeriod
    let period1 := session1.2.meanAuthoredPacketPeriod
    -- Rate is 1/period, and (1/a)/((1/a)+(1/b)) = b/(a+b)
    let pick := env.genBool rng (period1 / (period0 + period1))
    afterPick (if pick.1 then session0 else session1) pick.2

/-- The packet-building loop of `post_request`: for each fragment
blueprint, build a packet (registering SURB keystore entries inside the
closure) and push it into the authored queue. A mid-loop topology
failure keeps the pushes and keystore insertions already made. -/
def postRequestLoop (env : Env) (builder : Builder) (numHops : Nat) :
    List Blueprint → Rng → AuthoredPacketQueue → SurbKeystore → Delay → Delay →
    (AuthoredPacketQueue × SurbKeystore × Delay × Delay × Except TopologyErr Unit)
  | [], _, queue, keystore, maxRequestDelay, maxReplyDelay =>
    (queue, keystore, maxRequestDelay, maxReplyDelay, .ok ())
  | blueprint :: rest, rng, queue, keystore, maxRequestDelay, maxReplyDelay =>
    match env.buildFragmentPacket builder rng blueprint keystore numHops with
    | .error e => (queue, keystore, maxRequestDelay, maxReplyDelay, .error e)
    | .ok (packet, delay, replyDelay, keystore, rng) =>
      postRequestLoop env builder numHops rest rng (queue.push packet) keystore
        (max maxRequestDelay delay) (max maxReplyDelay replyDelay)

/-- The target session index of `post_request`: the caller-supplied
destination's session, or the phase's default request session. -/
def requestSessionIndex (env : Env) (status : SessionStatus)
    (destination : Option MixnodeId) : SessionIndex :=
  match destination with
  | none => (env.defaultRequestSession status.phase).addTo status.currentIndex
  | some d => d.sessionIndex

/-- `post_request`: fragment the message, resolve the session, check
queue capacity, then build and enqueue one packet per fragment.
Returns the new engine state, the written-back destination, and the
result. -/
def post_request (env : Env) (m : Mixnet) (rng : Rng) (destination : Option MixnodeId)
    (data : Data) (numSurbs : Nat) (ns : NetStatus) :
    (Mixnet × Option MixnodeId) × Except PostErr Duration :=
  -- Split the message into fragments
  let messageId := (env.genMessageId rng).1
  let rng := (env.genMessageId rng).2
  match env.fragmentBlueprints messageId data numSurbs with
  | none => ((m, destination), .error .tooManyFragments)
  | some fragmentBlueprints =>
    if ¬ fragmentBlueprints.length ≤ m.config.maxFragmentsPerMessage then
      ((m, destination), .error .tooManyFragments)
    else
      -- Grab the session and check there is room in the queue
      let sessionIndex := requestSessionIndex env m.sessionStatus destination
      match post_session env m.sessions m.sessionStatus sessionIndex with
      | .error e => ((m, destination), .error e)
      | .ok (relIndex, session) =>
        if fragmentBlueprints.length > session.authoredPacketQueue.remainingCapacity then
          ((m, destination), .error .notEnoughSpaceInQueue)
        else
          -- Generate the packets and push them into the queue
          match env.requestBuilderNew rng session.topology ns
              (destination.map fun d => d.mixnodeIndex) with
          | .error e => ((m, destination), .error (.topology e))
          | .ok (builder, rng) =>
            let loopRes :=
              postRequestLoop env builder m.config.numHops fragmentBlueprints rng
                session.authoredPacketQueue m.surbKeystore 0 0
            let m := { m with
              sessions := m.sessions.set relIndex
                { session with authoredPacketQueue := loopRes.1 },
              surbKeystore := loopRes.2.1 }
            match loopRes.2.2.2.2 with
            | .error e => ((m, destination), .error (.topology e))
            | .ok () =>
              let destination := some
                { sessionIndex := sessionIndex,
                  mixnodeIndex := env.builderDestinationIndex builder }
              let maxDelay := loopRes.2.2.1 + loopRes.2.2.2.1
              ((m, destination), .ok (env.delayToDuration maxDelay m.config.meanForwardingDelay))

/-- The packet-building loop of `post_reply`: for each fragment
blueprint, complete a packet with the next SURB popped from the end of
the list and push it into the authored queue. A mid-loop failure keeps
the pushes and pops already made. -/
def postReplyLoop (env : Env) (topology : Topology) :
    List Blueprint → List Surb → AuthoredPacketQueue →
    (List Surb × AuthoredPacketQueue × Except PostErr Unit)
  | [], surbs, queue => (surbs, queue, .ok ())
  | blueprint :: rest, surbs, queue =>
    let body := env.replyPacketBody blueprint
    match surbs.getLast? with
    | none => (surbs, queue, .error .badSurb)
    | some surb =>
      let surbs := surbs.dropLast
      match env.completeReplyPacket body surb with
      | none => (surbs, queue, .error .badSurb)
      | some (mixnodeIndex, packet) =>
        match topology.mixnodeIndexToPeerId mixnodeIndex with
        | .error e => (surbs, queue, .error (.topology e))
        | .ok peerId =>
          postReplyLoop env topology rest surbs
            (queue.push { peerId := peerId, packet := packet })

/-- `post_reply`: fragment the reply (no SURBs inside), resolve the
session, check queue capacity, then complete one packet per fragment
using the caller's SURBs (popped from the end of the list). -/
def post_reply (env : Env) (m : Mixnet) (surbs : List Surb) (sessionIndex : SessionIndex)
    (messageId : MessageId) (data : Data) :
    (Mixnet × List Surb) × Except PostErr Unit :=
  -- Split the message into fragments
  match env.fragmentBlueprints messageId data 0 with
  | none => ((m, surbs), .error .tooManyFragments)
  | some fragmentBlueprints =>
    if ¬ fragmentBlueprints.length ≤
        min m.config.maxFragmentsPerMessage surbs.length then
      ((m, surbs), .error .tooManyFragments)
    else
      -- Grab the session and check there is room in the queue
      match post_session env m.sessions m.sessionStatus sessionIndex with
      | .error e => ((m, surbs), .error e)
      | .ok (relIndex, session) =>
        if fragmentBlueprints.length > session.authoredPacketQueue.remainingCapacity then
          ((m, surbs), .error .notEnoughSpaceInQueue)
        else
          -- Generate the packets and push them into the queue
          let loopRes :=
            postReplyLoop env session.topology fragmentBlueprints surbs
              session.authoredPacketQueue
          let m := { m with
            sessions := m.sessions.set relIndex
              { session with authoredPacketQueue := loopRes.2.1 } }
          ((m, loopRes.1), loopRes.2.2)

/-- Session resolution as the spec words it: the session must be the
current index or the current index minus one (wrapping in `u32`), the
phase must allow requests and replies on it, and the slot must be full,
the checks applied in that order. -/
def post_session_expected (env : Env) (sessions : Sessions) (status : SessionStatus)
    (index : SessionIndex) : Except PostErr (RelSessionIndex × Session) :=
  if index = status.currentIndex then check .current
  else if index = (status.currentIndex + (U32 - 1)) % U32 then check .prev
  else .error (.badSessionIndex index)
where
  check (relIndex : RelSessionIndex) : Except PostErr (RelSessionIndex × Session) :=
    if ¬ env.allowRequestsAndReplies status.phase relIndex then
      .error (.requestsAndRepliesBlocked index)
    else
      match sessions.get relIndex with
      | .empty => .error (.sessionEmpty index)
      | .disabled => .error (.sessionDisabled index)
      | .full session => .ok (relIndex, session)

/-- The session slots after a status change, as the claim words it:
rotate on an advance by exactly one, clear both slots on any other
index change, then mark the previous slot disabled when the new phase
no longer needs the previous session. -/
def sessionsAfterStatusChange (env : Env) (old : SessionStatus) (sessions : Sessions)
    (status : SessionStatus) : Sessions :=
  let base :=
    if status.currentIndex = old.currentIndex then sessions
    else if status.currentIndex = old.currentIndex + 1 then sessions.advanceByOne
    else Sessions.default
  if env.needPrev status.phase then base else { base with prev := .disabled }

/-! ### Concrete instances

A fully concrete environment and engine states, used to evaluate the
embedded operations on closed inputs. -/

/-- A concrete environment: the peeled action is selected by the
packet's body field. -/
def exEnv : Env where
  needPrev := fun phase => phase ≠ .disconnectFromPrev
  allowRequestsAndReplies := fun _ _ => true
  genCoverPackets := fun _ _ => true
  defaultRequestSession := fun _ => .current
  addPendingSessionSecrets := fun ks => ks
  kxExchange := fun s pk => s + pk
  peel := fun p _ =>
    match p.body with
    | 0 => .ok (.deliverRequest, 0)
    | 1 => .ok (.forwardTo 0 2, 5)
    | 2 => .ok (.deliverReply 77, 3)
    | 3 => .ok (.deliverReply 78, 3)
    | _ => .error .mac
  payloadData := fun n => n
  payloadOf := fun n => n
  payloadDataOfPayload := fun n => n
  decryptReplyPayload := fun p _ => some p
  faInsert := fun st pd => (st + pd, some ⟨1, 2, []⟩)
  delayToDuration := fun d mean => (d : ℚ) * mean
  now := 0
  sampleExp1 := fun _ => 1
  genBool := fun r _ => (false, r)
  genMessageId := fun r => (9, r)
  fragmentBlueprints := fun _ data _ => if data.length ≤ 16 then some data else none
  requestBuilderNew := fun r _ _ d => .ok (d.getD 0, r)
  builderDestinationIndex := fun b => b
  buildFragmentPacket := fun _ r _ ks _ => .ok (⟨0, 0⟩, 1, 1, ks, r)
  replyPacketBody := fun b => b
  completeReplyPacket := fun b _ => some (0, b)
  chooseDestinationIndex := fun _ _ _ => .ok 0
  genRoute := fun _ _ _ _ _ => .ok (0, 0)
  buildCoverPacket := fun rt _ => rt

/-- A concrete topology in which the local node is a mixnode. -/
def exTopo : Topology where
  isMixnode := true
  targetToPeerId := fun t => .ok (t + 100)
  mixnodeIndexToPeerId := fun i => .ok (i + 200)

/-- An empty authored packet queue of capacity 4. -/
def exQueue : AuthoredPacketQueue := ⟨4, []⟩

/-- The current session of the example state: empty replay filter. -/
def exSession : Session := ⟨exTopo, exQueue, 30, []⟩

/-- A current session whose replay filter has seen public key 5. -/
def exSessionSeen : Session := ⟨exTopo, exQueue, 30, [5]⟩

/-- The previous session of the example state: its replay filter has
seen public key 5. -/
def exSessionPrev : Session := ⟨exTopo, exQueue, 40, [5]⟩

/-- A session whose authored packet queue has zero capacity. -/
def exSessionNoRoom : Session := ⟨exTopo, ⟨0, []⟩, 30, []⟩

/-- The example session status: current index 10. -/
def exStatus : SessionStatus := ⟨10, .requestsAndRepliesToCurrent⟩

/-- The example configuration, cover packets enabled. -/
def exConfig : Config :=
  { genCoverPackets := true
    loopCoverProportion := 1 / 10
    numHops := 3
    meanForwardingDelay := 1
    maxFragmentsPerMessage := 16
    forwardPacketQueueCapacity := 8
    surbKeystoreCapacity := 8 }

/-- The example configuration with cover packets disabled. -/
def exConfigOff : Config := { exConfig with genCoverPackets := false }

/-- The example engine state: both sessions full, secrets for sessions
10 and 9, one SURB keystore entry under id 77. -/
def exM : Mixnet where
  config := exConfig
  sessionStatus := exStatus
  kxStore := [(10, 3), (9, 4)]
  sessions := ⟨.full exSession, .full exSessionPrev⟩
  forwardPacketQueue := ⟨8, []⟩
  surbKeystore := ⟨8, [(77, 55)]⟩
  fragmentAssembler := 0
  invalidated := Invalidated.empty

/-- The example state with the packet public already seen by the
current session's replay filter. -/
def exMSeen : Mixnet := { exM with sessions := ⟨.full exSessionSeen, .full exSessionPrev⟩ }

/-- The example state with a full forward packet queue (capacity 0). -/
def exMNoFwd : Mixnet := { exM with forwardPacketQueue := ⟨0, []⟩ }

/-- The example state whose current session has a zero-capacity
authored packet queue. -/
def exMNoRoom : Mixnet := { exM with sessions := ⟨.full exSessionNoRoom, .full exSessionPrev⟩ }

/-- The example state with cover packet generation disabled. -/
def exMOff : Mixnet := { exM with config := exConfigOff }

/-! ### Theorems -/

/-- C10: calling `set_session_status` with a status equal to the
currently stored status (same current index and same phase) is a
complete no-op: the session slots, the key-exchange store, and the
invalidation flag set are all left unchanged — no invalidation bit is
raised and no key-store pruning occurs. -/
theorem set_session_status_noop (env : Env) (m : Mixnet) :
    set_session_status env m m.sessionStatus = m := by
  simp [set_session_status]

/-- C2: in `set_session_status`, when the passed status differs from
the stored one, the new current index exceeding the old by exactly one
rotates the sessions (previous discarded, current becomes previous,
new current empty), any other index change clears both slots, the
previous slot is marked disabled when the new phase no longer needs
the previous session, the RESERVED_PEERS and
NEXT_AUTHORED_PACKET_DEADLINE bits are raised, and obsolete key-store
secrets are pruned. -/
theorem set_session_status_change_spec (env : Env) (m : Mixnet) (status : SessionStatus)
    (hne : status ≠ m.sessionStatus) :
    (set_session_status env m status).sessionStatus = status ∧
    (set_session_status env m status).invalidated = m.invalidated.raiseReservedAndAuthored ∧
    (set_session_status env m status).kxStore =
      discardSessionsBefore m.kxStore
        ((if env.needPrev status.phase then RelSessionIndex.prev
          else RelSessionIndex.current).addTo status.currentIndex) ∧
    (set_session_status env m status).sessions =
      sessionsAfterStatusChange env m.sessionStatus m.sessions status := by
  have hcond : ¬ (m.sessionStatus = status) := fun h => hne h.symm
  unfold set_session_status sessionsAfterStatusChange
  rw [if_neg hcond]
  refine ⟨rfl, rfl, rfl, ?_⟩
  dsimp only
  have hbase :
      (if m.sessionStatus.currentIndex ≠ status.currentIndex then
        if status.currentIndex - m.sessionStatus.currentIndex = 1 then m.sessions.advanceByOne
        else Sessions.default
      else m.sessions) =
      (if status.currentIndex = m.sessionStatus.currentIndex then m.sessions
       else if status.currentIndex = m.sessionStatus.currentIndex + 1 then
         m.sessions.advanceByOne
       else Sessions.default) := by
    by_cases h1 : status.currentIndex = m.sessionStatus.currentIndex
    · have hc : ¬ (m.sessionStatus.currentIndex ≠ status.currentIndex) := by omega
      rw [if_neg hc, if_pos h1]
    · by_cases h2 : status.currentIndex = m.sessionStatus.currentIndex + 1
      · have hc1 : m.sessionStatus.currentIndex ≠ status.currentIndex := by omega
        have hc2 : status.currentIndex - m.sessionStatus.currentIndex = 1 := by omega
        rw [if_pos hc1, if_pos hc2, if_neg h1, if_pos h2]
      · have hc1 : m.sessionStatus.currentIndex ≠ status.currentIndex := by omega
        have hc2 : ¬ (status.currentIndex - m.sessionStatus.currentIndex = 1) := by omega
        rw [if_pos hc1, if_neg hc2, if_neg h1, if_neg h2]
  rw [hbase]

theorem wrappingSub_eq_zero_iff {c i : Nat} (hc : c < U32) (hi : i < U32) :
    wrappingSub c i = 0 ↔ i = c := by
  simp only [wrappingSub, U32] at hc hi ⊢
  omega

theorem wrappingSub_eq_one_iff {c i : Nat} (hc : c < U32) (hi : i < U32) :
    wrappingSub c i = 1 ↔ i = (c + (U32 - 1)) % U32 := by
  simp only [wrappingSub, U32] at hc hi ⊢
  omega

/-- C2 witness: advancing the example state from index 10 to index 11
with a new phase rotates the sessions, raises the two invalidation
bits and prunes the key store. -/
theorem set_session_status_change_spec_witness :
    (set_session_status exEnv exM ⟨11, .coverToCurrent⟩).sessionStatus =
      (⟨11, .coverToCurrent⟩ : SessionStatus) ∧
    (set_session_status exEnv exM ⟨11, .coverToCurrent⟩).invalidated =
      exM.invalidated.raiseReservedAndAuthored ∧
    (set_session_status exEnv exM ⟨11, .coverToCurrent⟩).kxStore =
      discardSessionsBefore exM.kxStore
        ((if exEnv.needPrev SessionPhase.coverToCurrent then RelSessionIndex.prev
          else RelSessionIndex.current).addTo 11) ∧
    (set_session_status exEnv exM ⟨11, .coverToCurrent⟩).sessions =
      sessionsAfterStatusChange exEnv exM.sessionStatus exM.sessions
        ⟨11, .coverToCurrent⟩ :=
  set_session_status_change_spec exEnv exM ⟨11, .coverToCurrent⟩ (by decide)

/-- C5: `post_session` fails with BadSessionIndex when the index is
neither the current index nor the current index minus one (wrapping in
`u32`); otherwise with RequestsAndRepliesBlocked when the phase does
not allow requests and replies on that relative session; otherwise
with SessionEmpty / SessionDisabled by slot state; and succeeds exactly
when the slot is full and the phase allows, with the checks applied in
that order — i.e. it agrees with the spec-shaped resolution
`post_session_expected`. -/
theorem post_session_resolution_spec (env : Env) (sessions : Sessions)
    (status : SessionStatus) (index : Nat)
    (hc : status.currentIndex < U32) (hi : index < U32) :
    post_session env sessions status index =
      post_session_expected env sessions status index := by
  unfold post_session post_session_expected
  by_cases h0 : index = status.currentIndex
  · rw [if_pos ((wrappingSub_eq_zero_iff hc hi).mpr h0), if_pos h0]
    rfl
  · have hz : ¬ wrappingSub status.currentIndex index = 0 := by
      rw [wrappingSub_eq_zero_iff hc hi]; exact h0
    by_cases h1 : index = (status.currentIndex + (U32 - 1)) % U32
    · rw [if_neg hz, if_pos ((wrappingSub_eq_one_iff hc hi).mpr h1), if_neg h0, if_pos h1]
      rfl
    · have ho : ¬ wrappingSub status.currentIndex index = 1 := by
        rw [wrappingSub_eq_one_iff hc hi]; exact h1
      rw [if_neg hz, if_neg ho, if_neg h0, if_neg h1]

/-- C5 witness: at current index 10, resolving index 9 (the previous
session) agrees with the spec-shaped resolution. -/
theorem post_session_resolution_spec_witness :
    post_session exEnv exM.sessions exStatus 9 =
      post_session_expected exEnv exM.sessions exStatus 9 :=
  post_session_resolution_spec exEnv exM.sessions exStatus 9 (by decide) (by decide)

/-- C1 (amended): for every engine state and every packet whose
key-exchange public field is already present in the replay filter of
the first full session slot (current, else previous), `handle_packet`
returns none and leaves the forward packet queue unchanged. -/
theorem handle_packet_replay_first_full_slot (env : Env) (m : Mixnet) (packet : Packet)
    (relIndex : RelSessionIndex) (session : Session)
    (hhead : m.sessions.relSlots.head? = some (relIndex, session))
    (hfilter : session.replayFilter.contains (kx_public packet) = true) :
    (handle_packet env m packet).2 = none ∧
    (handle_packet env m packet).1.forwardPacketQueue = m.forwardPacketQueue := by
  have hgo : findSessionResult env m.sessionStatus (env.addPendingSessionSecrets m.kxStore)
      m.sessions packet = .hardFail := by
    unfold findSessionResult
    rcases hl : m.sessions.relSlots with _ | ⟨p, rest⟩
    · rw [hl] at hhead
      simp at hhead
    · rw [hl] at hhead
      simp only [List.head?_cons, Option.some.injEq] at hhead
      subst hhead
      unfold findSessionResult.go trySession
      rw [if_pos hfilter]
  unfold handle_packet
  dsimp only
  rw [hgo]
  exact ⟨rfl, rfl⟩

/-- C1 counterexample: the claim as stated is false. In the state
`exM`, public key 5 is in the replay filter of the full previous slot,
yet `handle_packet` on a packet with that key delivers a message (the
current session peels it first and accepts it), so it does not return
none. -/
theorem handle_packet_replay_any_full_slot_cex :
    (∃ s, exM.sessions.prev = SessionSlot.full s ∧
      s.replayFilter.contains (kx_public ⟨5, 0⟩) = true) ∧
    (handle_packet exEnv exM ⟨5, 0⟩).2 ≠ none := by
  constructor
  · exact ⟨exSessionPrev, rfl, rfl⟩
  · have h : (handle_packet exEnv exM ⟨5, 0⟩).2 = some (Message.request 10 2 []) := rfl
    rw [h]
    simp

/-- C1 witness: in the state `exMSeen`, whose first full slot (the
current session) has already seen public key 5, feeding a packet with
that key returns none and leaves the forward queue unchanged. -/
theorem handle_packet_replay_first_full_slot_witness :
    (handle_packet exEnv exMSeen ⟨5, 0⟩).2 = none ∧
    (handle_packet exEnv exMSeen ⟨5, 0⟩).1.forwardPacketQueue = exMSeen.forwardPacketQueue :=
  handle_packet_replay_first_full_slot exEnv exMSeen ⟨5, 0⟩ .current exSessionSeen rfl rfl

/-- C3: when `handle_packet` peels a packet to a DeliverReply action,
a missing SURB keystore entry yields none with the SURB keystore,
replay filters, forward queue and fragment assembler unchanged; an
existing entry is removed from the keystore in every case — whether
payload decryption succeeds or fails — and no replay filter is
modified. -/
theorem handle_packet_deliver_reply_spec (env : Env) (m : Mixnet) (packet : Packet)
    (relIndex : RelSessionIndex) (sessionIndex : SessionIndex) (session : Session)
    (out : Nat) (surbId : SurbId)
    (hfind : findSessionResult env m.sessionStatus (env.addPendingSessionSecrets m.kxStore)
      m.sessions packet = .success relIndex sessionIndex session out (.deliverReply surbId)) :
    (m.surbKeystore.lookup surbId = none →
      (handle_packet env m packet).2 = none ∧
      (handle_packet env m packet).1.surbKeystore = m.surbKeystore ∧
      (handle_packet env m packet).1.sessions = m.sessions ∧
      (handle_packet env m packet).1.forwardPacketQueue = m.forwardPacketQueue ∧
      (handle_packet env m packet).1.fragmentAssembler = m.fragmentAssembler) ∧
    (∀ keys, m.surbKeystore.lookup surbId = some keys →
      (handle_packet env m packet).1.surbKeystore = m.surbKeystore.remove surbId ∧
      (handle_packet env m packet).1.sessions = m.sessions) := by
  unfold handle_packet
  dsimp only
  rw [hfind]
  dsimp only
  constructor
  · intro hnone
    rw [hnone]
    exact ⟨rfl, rfl, rfl, rfl, rfl⟩
  · intro keys hkeys
    rw [hkeys]
    dsimp only
    cases env.decryptReplyPayload (env.payloadOf out) keys
    · exact ⟨rfl, rfl⟩
    · exact ⟨rfl, rfl⟩

/-- C3 witness: at a reply packet for the known SURB id 77 the
keystore entry is removed and the sessions are untouched; at the
unknown SURB id 78 nothing changes and no message is delivered. -/
theorem handle_packet_deliver_reply_spec_witness :
    ((handle_packet exEnv exM ⟨6, 2⟩).1.surbKeystore = exM.surbKeystore.remove 77 ∧
     (handle_packet exEnv exM ⟨6, 2⟩).1.sessions = exM.sessions) ∧
    ((handle_packet exEnv exM ⟨6, 3⟩).2 = none ∧
     (handle_packet exEnv exM ⟨6, 3⟩).1.surbKeystore = exM.surbKeystore ∧
     (handle_packet exEnv exM ⟨6, 3⟩).1.sessions = exM.sessions ∧
     (handle_packet exEnv exM ⟨6, 3⟩).1.forwardPacketQueue = exM.forwardPacketQueue ∧
     (handle_packet exEnv exM ⟨6, 3⟩).1.fragmentAssembler = exM.fragmentAssembler) :=
  ⟨(handle_packet_deliver_reply_spec exEnv exM ⟨6, 2⟩ .current 10 exSession 3 77 rfl).2
      55 rfl,
   (handle_packet_deliver_reply_spec exEnv exM ⟨6, 3⟩ .current 10 exSession 3 78 rfl).1
      rfl⟩

/-- C4: when `handle_packet` peels a packet to a Forward action, the
packet public is inserted into the session's replay filter only after
both the local-node-is-mixnode check and the forward-queue-capacity
check succeed: if either fails, it returns none and every session's
replay filter is unchanged; if both succeed, the public is inserted
into exactly the acting session's filter. -/
theorem handle_packet_forward_checks_spec (env : Env) (m : Mixnet) (packet : Packet)
    (relIndex : RelSessionIndex) (sessionIndex : SessionIndex) (session : Session)
    (out : Nat) (target : Target) (delay : Delay)
    (hfind : findSessionResult env m.sessionStatus (env.addPendingSessionSecrets m.kxStore)
      m.sessions packet = .success relIndex sessionIndex session out (.forwardTo target delay)) :
    ((session.topology.isMixnode = false ∨ m.forwardPacketQueue.remainingCapacity = 0) →
      (handle_packet env m packet).2 = none ∧
      (handle_packet env m packet).1.sessions = m.sessions) ∧
    (session.topology.isMixnode = true → 0 < m.forwardPacketQueue.remainingCapacity →
      (handle_packet env m packet).1.sessions =
        m.sessions.set relIndex
          { session with replayFilter := kx_public packet :: session.replayFilter }) := by
  unfold handle_packet
  dsimp only
  rw [hfind]
  dsimp only
  constructor
  · intro h
    by_cases hm : session.topology.isMixnode = true
    · have hc : m.forwardPacketQueue.remainingCapacity = 0 := by
        rcases h with h | h
        · rw [hm] at h; cases h
        · exact h
      rw [if_neg (by simp [hm]), if_pos hc]
      exact ⟨rfl, rfl⟩
    · rw [if_pos (by simp [hm])]
      exact ⟨rfl, rfl⟩
  · intro hm hc
    rw [if_neg (by simp [hm]), if_neg (by omega)]
    cases session.topology.targetToPeerId target
    · rfl
    · rfl

/-- C4 witness: with a full forward queue the forward packet is
dropped with no replay filter change; with room in the queue the
packet public is inserted into the current session's filter. -/
theorem handle_packet_forward_checks_spec_witness :
    ((handle_packet exEnv exMNoFwd ⟨5, 1⟩).2 = none ∧
     (handle_packet exEnv exMNoFwd ⟨5, 1⟩).1.sessions = exMNoFwd.sessions) ∧
    (handle_packet exEnv exM ⟨5, 1⟩).1.sessions =
      exM.sessions.set .current
        { exSession with replayFilter := kx_public ⟨5, 1⟩ :: exSession.replayFilter } :=
  ⟨(handle_packet_forward_checks_spec exEnv exMNoFwd ⟨5, 1⟩ .current 10 exSession 5 0 2
      rfl).1 (Or.inr rfl),
   (handle_packet_forward_checks_spec exEnv exM ⟨5, 1⟩ .current 10 exSession 5 0 2
      rfl).2 rfl (by decide)⟩

/-- C6: a `post_request` whose fragment blueprint count exceeds the
remaining capacity of the resolved session's authored packet queue
returns NotEnoughSpaceInQueue and leaves the whole engine state — in
particular the authored packet queue — exactly as it was: the capacity
check precedes any push. -/
theorem post_request_queue_unchanged_on_full (env : Env) (m : Mixnet) (rng : Rng)
    (destination : Option MixnodeId) (data : Data) (numSurbs : Nat) (ns : NetStatus)
    (bps : List Blueprint) (relIndex : RelSessionIndex) (session : Session)
    (hbp : env.fragmentBlueprints (env.genMessageId rng).1 data numSurbs = some bps)
    (hlen : bps.length ≤ m.config.maxFragmentsPerMessage)
    (hsess : post_session env m.sessions m.sessionStatus
      (requestSessionIndex env m.sessionStatus destination) = .ok (relIndex, session))
    (hcap : session.authoredPacketQueue.remainingCapacity < bps.length) :
    post_request env m rng destination data numSurbs ns =
      ((m, destination), .error .notEnoughSpaceInQueue) := by
  unfold post_request
  dsimp only
  rw [hbp]
  dsimp only
  rw [if_neg (not_not_intro hlen), hsess]
  dsimp only
  rw [if_pos hcap]

/-- C6 witness: posting a two-fragment request into a session whose
authored queue has zero capacity fails with NotEnoughSpaceInQueue and
changes nothing. -/
theorem post_request_queue_unchanged_on_full_witness :
    post_request exEnv exMNoRoom 0 none [1, 2] 0 0 =
      ((exMNoRoom, none), .error .notEnoughSpaceInQueue) :=
  post_request_queue_unchanged_on_full exEnv exMNoRoom 0 none [1, 2] 0 0 [1, 2]
    .current exSessionNoRoom rfl (by decide) rfl (by decide)

/-- C8: a `post_reply` whose fragment blueprint count exceeds
min(max fragments per message, number of available SURBs), or for
which no blueprints are produced, fails with TooManyFragments before
any session lookup, leaving the engine state and the passed SURB list
unchanged. -/
theorem post_reply_too_many_fragments_spec (env : Env) (m : Mixnet) (surbs : List Surb)
    (sessionIndex : SessionIndex) (messageId : MessageId) (data : Data)
    (h : env.fragmentBlueprints messageId data 0 = none ∨
      ∃ bps, env.fragmentBlueprints messageId data 0 = some bps ∧
        min m.config.maxFragmentsPerMessage surbs.length < bps.length) :
    post_reply env m surbs sessionIndex messageId data =
      ((m, surbs), .error .tooManyFragments) := by
  unfold post_reply
  rcases h with h | ⟨bps, hbp, hlen⟩
  · rw [h]
  · rw [hbp]
    dsimp only
    rw [if_pos (by omega)]

/-- C8 witness: posting a non-empty reply with an empty SURB list (one
blueprint, zero SURBs available) fails with TooManyFragments and
changes nothing. -/
theorem post_reply_too_many_fragments_spec_witness :
    post_reply exEnv exM [] 10 42 [1] = ((exM, []), .error .tooManyFragments) :=
  post_reply_too_many_fragments_spec exEnv exM [] 10 42 [1]
    (Or.inr ⟨[1], rfl, by decide⟩)

/-- C7: `next_authored_packet_delay` returns none exactly when no full
session slot satisfies the current phase's gen_cover_packets
predicate; otherwise it returns the minimum mean authored-packet
period among the eligible sessions multiplied by min(s, 10) for the
sampled s, so the returned delay never exceeds ten times the minimum
mean period. -/
theorem next_authored_packet_delay_spec (env : Env) (m : Mixnet) (rng : Rng)
    (hp : ∀ p ∈ m.sessions.relSlots, 0 ≤ p.2.meanAuthoredPacketPeriod) :
    (next_authored_packet_delay env m rng = none ↔
      m.sessions.relSlots.filter
        (fun p => env.genCoverPackets m.sessionStatus.phase p.1) = []) ∧
    ∀ d, next_authored_packet_delay env m rng = some d →
      ∃ mean, ((m.sessions.relSlots.filter
          (fun p => env.genCoverPackets m.sessionStatus.phase p.1)).map
            (fun p => p.2.meanAuthoredPacketPeriod)).min? = some mean ∧
        d = mean * min (env.sampleExp1 rng) 10 ∧ d ≤ 10 * mean := by
  unfold next_authored_packet_delay
  constructor
  · rw [Option.map_eq_none']
    rw [List.min?_eq_none_iff]
    exact List.map_eq_nil_iff
  · intro d hd
    rw [Option.map_eq_some'] at hd
    obtain ⟨mean, hmin, hval⟩ := hd
    have hmem : mean ∈ (m.sessions.relSlots.filter
        (fun p => env.genCoverPackets m.sessionStatus.phase p.1)).map
          (fun p => p.2.meanAuthoredPacketPeriod) :=
      List.min?_mem (fun a b => min_choice a b) hmin
    obtain ⟨p, hpmem, hpval⟩ := List.mem_map.mp hmem
    have h0 : (0 : ℚ) ≤ mean := hpval ▸ hp p (List.mem_filter.mp hpmem).1
    refine ⟨mean, hmin, hval.symm, ?_⟩
    calc d = mean * min (env.sampleExp1 rng) 10 := hval.symm
      _ ≤ mean * 10 := mul_le_mul_of_nonneg_left (min_le_right _ _) h0
      _ = 10 * mean := mul_comm _ _

/-- C7 witness: at the example state both sessions are eligible; the
returned delay is the minimum period 30 scaled by min(1, 10) and is
bounded by ten times the minimum period. -/
theorem next_authored_packet_delay_spec_witness :
    (next_authored_packet_delay exEnv exM 0 = none ↔
      exM.sessions.relSlots.filter
        (fun p => exEnv.genCoverPackets exM.sessionStatus.phase p.1) = []) ∧
    ∀ d, next_authored_packet_delay exEnv exM 0 = some d →
      ∃ mean, ((exM.sessions.relSlots.filter
          (fun p => exEnv.genCoverPackets exM.sessionStatus.phase p.1)).map
            (fun p => p.2.meanAuthoredPacketPeriod)).min? = some mean ∧
        d = mean * min (exEnv.sampleExp1 0) 10 ∧ d ≤ 10 * mean :=
  next_authored_packet_delay_spec exEnv exM 0
    (by
      intro p hp
      have hl : exM.sessions.relSlots =
          [(.current, exSession), (.prev, exSessionPrev)] := rfl
      rw [hl] at hp
      rcases List.mem_cons.mp hp with h | h
      · rw [h]; norm_num [exSession]
      · rcases List.mem_cons.mp h with h | h
        · rw [h]; norm_num [exSessionPrev]
        · cases h)

/-- C9: `gen_cover_packet` returns none whenever the
`gen_cover_packets` configuration flag is false, for every rng,
topology, network status and cover kind; consequently
`pop_next_authored_packet` with cover generation disabled and all
authored packet queues empty returns none. -/
theorem cover_generation_disabled_spec :
    (∀ (env : Env) (rng : Rng) (topology : Topology) (lns : NetStatus)
        (kind : CoverKind) (config : Config), config.genCoverPackets = false →
      gen_cover_packet env rng topology lns kind config = none) ∧
    (∀ (env : Env) (m : Mixnet) (rng : Rng) (ns : NetStatus),
      m.config.genCoverPackets = false →
      (∀ p ∈ m.sessions.relSlots, p.2.authoredPacketQueue.items = []) →
      (pop_next_authored_packet env m rng ns).2 = none) := by
  have hgen : ∀ (env : Env) (rng : Rng) (topology : Topology) (lns : NetStatus)
      (kind : CoverKind) (config : Config), config.genCoverPackets = false →
      gen_cover_packet env rng topology lns kind config = none := by
    intro env rng topology lns kind config hoff
    unfold gen_cover_packet
    rw [if_pos (by simp [hoff])]
  refine ⟨hgen, ?_⟩
  intro env m rng ns hoff hempty
  unfold pop_next_authored_packet
  dsimp only
  rcases hf : m.sessions.relSlots.filter
      (fun p => env.genCoverPackets m.sessionStatus.phase p.1) with _ | ⟨s0, tail⟩
  · rw [hf]
  · have hmem0 : s0 ∈ m.sessions.relSlots :=
      (List.mem_filter.mp (by rw [hf]; exact List.mem_cons_self _ _)).1
    have hq0 : s0.2.authoredPacketQueue.items = [] := hempty s0 hmem0
    have hpop0 : s0.2.authoredPacketQueue.pop = (none, s0.2.authoredPacketQueue) := by
      unfold AuthoredPacketQueue.pop
      rw [hq0]
    rcases tail with _ | ⟨s1, rest⟩
    · rw [hf]
      dsimp only
      by_cases hb : (env.genBool rng m.config.loopCoverProportion).1 = true
      · rw [if_pos hb]
        show gen_cover_packet env (env.genBool rng m.config.loopCoverProportion).2
          s0.2.topology ns CoverKind.loopKind m.config = none
        exact hgen _ _ _ _ _ _ hoff
      · rw [if_neg hb]
        have h1 : (if env.allowRequestsAndReplies m.sessionStatus.phase s0.1 then
            s0.2.authoredPacketQueue.pop
          else (none, s0.2.authoredPacketQueue)).1 = none := by
          by_cases ha : env.allowRequestsAndReplies m.sessionStatus.phase s0.1 = true
          · rw [if_pos ha, hpop0]
          · rw [if_neg ha]
        rw [h1]
        show gen_cover_packet env (env.genBool rng m.config.loopCoverProportion).2
          s0.2.topology ns CoverKind.drop m.config = none
        exact hgen _ _ _ _ _ _ hoff
    · have hmem1 : s1 ∈ m.sessions.relSlots :=
        (List.mem_filter.mp (by rw [hf]; exact List.mem_cons_of_mem _ (List.mem_cons_self _ _))).1
      have hq1 : s1.2.authoredPacketQueue.items = [] := hempty s1 hmem1
      have hpop1 : s1.2.authoredPacketQueue.pop = (none, s1.2.authoredPacketQueue) := by
        unfold AuthoredPacketQueue.pop
        rw [hq1]
      rw [hf]
      dsimp only
      set r1 := (env.genBool rng
        (s1.2.meanAuthoredPacketPeriod /
          (s0.2.meanAuthoredPacketPeriod + s1.2.meanAuthoredPacketPeriod))).2 with hr1
      set sc := if (env.genBool rng
        (s1.2.meanAuthoredPacketPeriod /
          (s0.2.meanAuthoredPacketPeriod + s1.2.meanAuthoredPacketPeriod))).1 then s0 else s1
        with hsc
      have hqc : sc.2.authoredPacketQueue.pop = (none, sc.2.authoredPacketQueue) := by
        rw [hsc]
        by_cases hb : (env.genBool rng
            (s1.2.meanAuthoredPacketPeriod /
              (s0.2.meanAuthoredPacketPeriod + s1.2.meanAuthoredPacketPeriod))).1 = true
        · rw [if_pos hb]; exact hpop0
        · rw [if_neg hb]; exact hpop1
      by_cases hb2 : (env.genBool r1 m.config.loopCoverProportion).1 = true
      · rw [if_pos hb2]
        show gen_cover_packet env (env.genBool r1 m.config.loopCoverProportion).2
          sc.2.topology ns CoverKind.loopKind m.config = none
        exact hgen _ _ _ _ _ _ hoff
      · rw [if_neg hb2]
        have h1 : (if env.allowRequestsAndReplies m.sessionStatus.phase sc.1 then
            sc.2.authoredPacketQueue.pop
          else (none, sc.2.authoredPacketQueue)).1 = none := by
          by_cases ha : env.allowRequestsAndReplies m.sessionStatus.phase sc.1 = true
          · rw [if_pos ha, hqc]
          · rw [if_neg ha]
        rw [h1]
        show gen_cover_packet env (env.genBool r1 m.config.loopCoverProportion).2
          sc.2.topology ns CoverKind.drop m.config = none
        exact hgen _ _ _ _ _ _ hoff

/-- C9 witness: with cover generation disabled, a loop cover packet is
not generated, and popping an authored packet from the example state
with empty queues yields none. -/
theorem cover_generation_disabled_spec_witness :
    gen_cover_packet exEnv 0 exTopo 0 .loopKind exConfigOff = none ∧
    (pop_next_authored_packet exEnv exMOff 0 0).2 = none :=
  ⟨cover_generation_disabled_spec.1 exEnv 0 exTopo 0 .loopKind exConfigOff rfl,
   cover_generation_disabled_spec.2 exEnv exMOff 0 0 rfl
    (by
      intro p hp
      have hl : exMOff.sessions.relSlots =
          [(.current, exSession), (.prev, exSessionPrev)] := rfl
      rw [hl] at hp
      rcases List.mem_cons.mp hp with h | h
      · rw [h]; rfl
      · rcases List.mem_cons.mp h with h | h
        · rw [h]; rfl
        · cases h)⟩

end MixnetCore
